import Mathlib

/-! Verification of the poem-openapi core (type conversion contracts, payload and
request/response contracts, security schemes, API composition).

The definitions below are a shallow embedding of the Rust sources:

  poem-openapi/src/base.rs                      (ApiRequest, ApiResponse, SecurityScheme, CombinedAPI)
  poem-openapi/src/types/external/integers.rs   (ParseFromJSON / ParseFromParameter / ToJSON for integers)
  poem-openapi/src/types/external/datetime.rs   (same contracts for DateTime of FixedOffset)
  poem-openapi/src/payload/plain_text.rs        (PlainText payload)

External dependencies used by this code (serde_json values, the mime crate, the
Rust standard integer FromStr parser, and chrono RFC 3339 formatting/parsing)
are embedded faithfully from their documented behaviour where the source calls
into them; comments on each definition say exactly what is being modelled.
Machine integers are represented as Int/Nat with the relevant 64-bit bounds
made explicit.
-/

/-! Model of serde_json values.

A serde_json Number is stored as one of: a u64 (non-negative integers), an i64
(negative integers), or an f64 (everything else).  The constructors mirror the
three-variant internal representation N::PosInt / N::NegInt / N::Float.
The float variant never converts to an integer via as a signed or unsigned
64-bit value, which is all this development observes about it, so it carries
no payload.  Invariants from the Rust side: a posInt holds a value that fits
in a u64, a negInt holds a strictly negative value that fits in an i64. -/

def i64MaxInt : Int := 2 ^ 63 - 1

def i64MinInt : Int := -(2 ^ 63)

def u64MaxNat : Nat := 2 ^ 64 - 1

inductive JsonNumber where
  | posInt (n : Nat)
  | negInt (i : Int)
  | float
deriving DecidableEq

/-- Model of serde_json Number::as_i64: a PosInt converts when it is at most
i64::MAX, a NegInt always converts, a Float never converts. -/
def JsonNumber.asI64 : JsonNumber → Option Int
  | .posInt n => if (n : Int) ≤ i64MaxInt then some (n : Int) else none
  | .negInt i => some i
  | .float => none

/-- Model of serde_json Number::as_u64: only a PosInt converts.  A Rust PosInt
is a u64 by construction, so over the Nat representation the u64 bound is made
an explicit guard (exactly as asI64 guards the i64 bound); values beyond it,
such as the JSON number 2^64, exist only as Floats on the Rust side and never
convert. -/
def JsonNumber.asU64 : JsonNumber → Option Nat
  | .posInt n => if n ≤ u64MaxNat then some n else none
  | .negInt _ => none
  | .float => none

/-- Model of serde_json Value. -/
inductive JValue where
  | null
  | bool (b : Bool)
  | number (n : JsonNumber)
  | str (s : String)
  | arr (elems : List JValue)
  | obj (fields : List (String × JValue))

/-- Model of poem-openapi ParseError (types module; the constructors are the
ones the embedded sources produce): expected_type carries the offending JSON
value, expected_input is the missing-input error, and custom carries the
message of a ParseError::from / ParseError::custom conversion. -/
inductive ParseError where
  | expectedType (value : JValue)
  | expectedInput
  | custom (message : String)

/-! Integer type contracts (types/external/integers.rs).

The impl_type_for_integers / impl_type_for_unsigneds macros instantiate one
template per width, parameterised by the native MIN/MAX of the target type;
the definitions below take those bounds as arguments. -/

/-- Message built by the macros' format string: Only integers from MIN to MAX
are accepted. (signed bounds, printed via Display for the signed type). -/
def rangeMessageSigned (minV maxV : Int) : String :=
  "Only integers from " ++ toString minV ++ " to " ++ toString maxV ++ " are accepted."

/-- Unsigned variant of the range message. -/
def rangeMessageUnsigned (minV maxV : Nat) : String :=
  "Only integers from " ++ toString minV ++ " to " ++ toString maxV ++ " are accepted."

/-- ParseFromJSON::parse_from_json for a signed integer type with native
bounds minV/maxV (integers.rs lines 29-49): require a Number, convert with
as_i64 (failing with the "invalid integer" error), then range-check against
MIN as i64 / MAX as i64. -/
def parseFromJsonSigned (minV maxV : Int) : JValue → Except ParseError Int
  | .number num =>
    match num.asI64 with
    | none => .error (.custom "invalid integer")
    | some n =>
      if n < minV ∨ n > maxV then .error (.custom (rangeMessageSigned minV maxV))
      else .ok n
  | v => .error (.expectedType v)

/-- ParseFromJSON::parse_from_json for an unsigned integer type with native
bounds minV/maxV (integers.rs lines 95-115), using as_u64. -/
def parseFromJsonUnsigned (minV maxV : Nat) : JValue → Except ParseError Nat
  | .number num =>
    match num.asU64 with
    | none => .error (.custom "invalid integer")
    | some n =>
      if n < minV ∨ n > maxV then .error (.custom (rangeMessageUnsigned minV maxV))
      else .ok n
  | v => .error (.expectedType v)

/-- ToJSON::to_json for signed integers (integers.rs lines 70-74):
Value::Number via serde_json From for i64, which stores a negative value as
NegInt and a non-negative one as PosInt. -/
def toJsonSigned (v : Int) : JValue :=
  .number (if v < 0 then .negInt v else .posInt v.toNat)

/-- ToJSON::to_json for unsigned integers (integers.rs lines 136-140). -/
def toJsonUnsigned (v : Nat) : JValue :=
  .number (.posInt v)

/-- Decimal digit value of a character, none for a non-digit. -/
def charDigit (c : Char) : Option Nat :=
  if c.isDigit then some (c.toNat - 48) else none

/-- Step loop of the Rust core library decimal integer parser
(from_str_radix with radix 10): consume digits left to right, accumulating
into acc (subtracting for a negative parse), failing as soon as a non-digit
appears or the accumulator leaves the native range minV..maxV.  The messages
are the Display strings of the corresponding core ParseIntError kinds. -/
def parseIntDigits (minV maxV : Int) (neg : Bool) : List Char → Int → Except String Int
  | [], acc => .ok acc
  | c :: rest, acc =>
    match charDigit c with
    | none => .error "invalid digit found in string"
    | some d =>
      let acc2 := if neg then acc * 10 - d else acc * 10 + d
      if acc2 > maxV then .error "number too large to fit in target type"
      else if acc2 < minV then .error "number too small to fit in target type"
      else parseIntDigits minV maxV neg rest acc2

/-- Model of Rust str::parse for an integer type with native bounds
minV/maxV (signed is true for the signed widths, controlling whether a
leading minus sign is accepted): empty input fails, a bare sign fails as an
invalid digit, otherwise the digit loop runs on the rest. -/
def parseIntRust (signed : Bool) (minV maxV : Int) (s : String) : Except String Int :=
  match s.toList with
  | [] => .error "cannot parse integer from empty string"
  | [c] =>
    if c = '+' ∨ c = '-' then .error "invalid digit found in string"
    else parseIntDigits minV maxV false [c] 0
  | c :: rest =>
    if c = '+' then parseIntDigits minV maxV false rest 0
    else if c = '-' ∧ signed then parseIntDigits minV maxV true rest 0
    else parseIntDigits minV maxV false (c :: rest) 0

/-- ParseFromParameter::parse_from_parameter for the integer types
(integers.rs lines 51-58 and 117-124): None fails with expected_input, Some
text delegates to str::parse with the error wrapped by ParseError::custom. -/
def parseFromParameterInt (signed : Bool) (minV maxV : Int) : Option String → Except ParseError Int
  | some v =>
    match parseIntRust signed minV maxV v with
    | .ok n => .ok n
    | .error e => .error (.custom e)
  | none => .error .expectedInput

/-! Content negotiation (base.rs, blanket ApiRequest impl).

poem-openapi ParseRequestError, restricted to the constructors produced by
the embedded sources. -/

inductive ParseRequestError where
  | expectContentType
  | contentTypeNotSupported (contentType : String)
  | parseRequestBody (reason : String)
deriving DecidableEq

/-- Splits a character list on a separator, mirroring str::split: the result
always has one more element than the number of separators. -/
def splitOnChar (sep : Char) : List Char → List (List Char)
  | [] => [[]]
  | c :: r =>
    if c = sep then [] :: splitOnChar sep r
    else
      match splitOnChar sep r with
      | [] => [[c]]
      | h :: t => (c :: h) :: t

/-- Characters the mime crate accepts inside a type/subtype/parameter token
(RFC 7230 tchar; the two quoting characters are left out of the model, no
essence in this development uses them). -/
def isTokenChar (c : Char) : Bool :=
  c.isAlphanum || c = '!' || c = '#' || c = '$' || c = '&' || c = '-' ||
    c = '^' || c = '_' || c = '.' || c = '+' || c = '|' || c = '~' || c = '*' || c = '%'

/-- Validity of one parameter segment after a semicolon, as the mime crate
accepts it: optional leading spaces then token=token. -/
def validParamChars (p : List Char) : Bool :=
  let q := p.dropWhile (fun c => c = ' ')
  match splitOnChar '=' q with
  | [k, v] => !k.isEmpty && !v.isEmpty && k.all isTokenChar && v.all isTokenChar
  | _ => false

/-- Model of parsing a content-type string with the mime crate and taking
Mime::essence_str: the string must be type/subtype optionally followed by
semicolon-separated parameters; the essence is the lowercased type/subtype
with all parameters dropped. -/
def parseMimeChars (l : List Char) : Option (List Char) :=
  match splitOnChar ';' l with
  | [] => none
  | mainPart :: params =>
    match splitOnChar '/' mainPart with
    | [ty, sub] =>
      if !ty.isEmpty && !sub.isEmpty && ty.all isTokenChar && sub.all isTokenChar
          && params.all validParamChars
      then some ((ty ++ '/' :: sub).map Char.toLower)
      else none
    | _ => none

/-- String-level wrapper for the mime essence model. -/
def parseMime (s : String) : Option String :=
  (parseMimeChars s.toList).map (fun l => String.mk l)

/-- Blanket ApiRequest::from_request for a Payload + ParsePayload type
(base.rs lines 49-74), with the payload abstracted to its declared
CONTENT_TYPE constant and its ParsePayload::from_request body parser:
no content-type header fails with ExpectContentType; a header that the mime
crate cannot parse, or whose essence differs from CONTENT_TYPE, fails with
ContentTypeNotSupported carrying the raw header string; otherwise the
payload's own parser runs. -/
def apiFromRequest {α β : Type} (contentTypeConst : String)
    (parsePayload : β → Except ParseRequestError α)
    (contentTypeHeader : Option String) (body : β) : Except ParseRequestError α :=
  match contentTypeHeader with
  | some ct =>
    match parseMime ct with
    | none => .error (.contentTypeNotSupported ct)
    | some essence =>
      if essence ≠ contentTypeConst then .error (.contentTypeNotSupported ct)
      else parsePayload body
  | none => .error .expectContentType

/-! Response contracts (base.rs, ApiResponse). -/

/-- Default value of the ApiResponse::BAD_REQUEST_HANDLER associated constant
(base.rs line 83). -/
def defaultBadRequestHandler : Bool := false

/-- Default body of ApiResponse::from_parse_request_error (base.rs lines
92-95).  The Rust default is a bare unreachable! panic for every argument;
the panic is modelled as none (no response value is ever produced). -/
def defaultFromParseRequestError (R : Type) : ParseRequestError → Option R :=
  fun _ => none

/-! Security schemes (base.rs, SecurityScheme for Option). -/

/-- SecurityScheme::from_request of the Option instance (base.rs lines
165-170): run the underlying scheme's extractor and wrap its outcome with
Result::ok, so the combined extractor always succeeds. -/
def secOptionFromRequest {T E Req Q : Type} (f : Req → Q → Except E T)
    (req : Req) (q : Q) : Except E (Option T) :=
  .ok (f req q).toOption

/-! API composition (base.rs, OpenApi combine and CombinedAPI).

An API object is either a directly implemented one, observed through its
list of operation metadata entries (the entries themselves are opaque here),
or a CombinedAPI of two others; combine builds the latter. -/

inductive ApiObj (α : Type) where
  | leaf (ms : List α)
  | combined (a b : ApiObj α)

/-- OpenApi::combine (base.rs lines 185-187). -/
def ApiObj.combine {α : Type} (a b : ApiObj α) : ApiObj α :=
  .combined a b

/-- OpenApi::meta: a leaf reports its own metadata; CombinedAPI::meta
(base.rs lines 194-198) takes the first operand's metadata and extends it
with the second's. -/
def ApiObj.meta {α : Type} : ApiObj α → List α
  | .leaf ms => ms
  | .combined a b => a.meta ++ b.meta

/-- The leaf metadata lists of an API object in declaration order. -/
def ApiObj.leaves {α : Type} : ApiObj α → List (List α)
  | .leaf ms => [ms]
  | .combined a b => a.leaves ++ b.leaves

/-! PlainText payload (payload/plain_text.rs). -/

/-- Model of a poem Response as observed here: status, the content-type
header, and the body bytes (UTF-8 text in this development). -/
structure HttpResponse where
  status : Nat
  contentType : Option String
  body : String
deriving DecidableEq

/-- The PlainText payload wrapper (plain_text.rs line 13) over its string
content. -/
structure PlainText where
  text : String
deriving DecidableEq

/-- Payload::CONTENT_TYPE for PlainText (plain_text.rs line 16). -/
def plainTextContentType : String := "text/plain"

/-- IntoResponse for PlainText (plain_text.rs lines 42-48):
Response::builder().content_type("text/plain").body(text); a poem response
builder starts from status 200 OK, which body() keeps. -/
def PlainText.intoResponse (p : PlainText) : HttpResponse :=
  { status := 200, contentType := some plainTextContentType, body := p.text }

/-! DateTime of FixedOffset (types/external/datetime.rs).

The chrono value is embedded as its civil field record: date, time of day,
nanoseconds, and the fixed offset in minutes.  The embedding covers the
RFC 3339 canonical domain that chrono's to_rfc3339 emits with four-digit
years and whole-minute offsets; leap-second representations (nanosecond
field at or above 10^9) are outside the model. -/

structure DateTimeFO where
  year : Nat
  month : Nat
  day : Nat
  hour : Nat
  minute : Nat
  second : Nat
  nano : Nat
  offSeconds : Int
deriving DecidableEq

/-- Gregorian leap year test. -/
def isLeapYear (y : Nat) : Bool :=
  (y % 4 = 0 && y % 100 ≠ 0) || y % 400 = 0

/-- Number of days in a month. -/
def daysInMonth (y m : Nat) : Nat :=
  if m = 2 then (if isLeapYear y then 29 else 28)
  else if m = 4 ∨ m = 6 ∨ m = 9 ∨ m = 11 then 30
  else 31

/-- Validity of the embedded datetime: a calendar-correct date with a
four-digit year, a time of day without leap seconds, sub-second part below
one second, and a seconds-granular fixed offset strictly within one day
(chrono's FixedOffset invariant). -/
def DateTimeFO.Valid (dt : DateTimeFO) : Prop :=
  dt.year ≤ 9999 ∧ 1 ≤ dt.month ∧ dt.month ≤ 12 ∧ 1 ≤ dt.day ∧
    dt.day ≤ daysInMonth dt.year dt.month ∧ dt.hour ≤ 23 ∧ dt.minute ≤ 59 ∧
    dt.second ≤ 59 ∧ dt.nano < 10 ^ 9 ∧ dt.offSeconds.natAbs ≤ 86399

instance (dt : DateTimeFO) : Decidable dt.Valid := by
  unfold DateTimeFO.Valid
  infer_instance

/-- The decimal digits of n, zero-padded on the left to width w (digit
values, most significant first). -/
def padDigitsN : Nat → Nat → List Nat
  | 0, _ => []
  | w + 1, n => n / 10 ^ w :: padDigitsN w (n % 10 ^ w)

/-- Zero-padded fixed-width decimal rendering as characters. -/
def padChars (w n : Nat) : List Char :=
  (padDigitsN w n).map Nat.digitChar

/-- Fixed-width digit scanner: consume exactly w digit characters, extending
the accumulator, failing on a non-digit or early end of input. -/
def takeDigitsAux : Nat → Nat → List Char → Option (Nat × List Char)
  | acc, 0, s => some (acc, s)
  | _, _ + 1, [] => none
  | acc, w + 1, c :: r =>
    match charDigit c with
    | some d => takeDigitsAux (acc * 10 + d) w r
    | none => none

/-- Greedy digit scanner: the longest digit prefix (as digit values) and the
rest of the input. -/
def spanDigits : List Char → List Nat × List Char
  | [] => ([], [])
  | c :: r =>
    match charDigit c with
    | some d => (d :: (spanDigits r).1, (spanDigits r).2)
    | none => ([], c :: r)

/-- Value of a digit list under an accumulator, most significant first. -/
def valDigitsAux : List Nat → Nat → Nat
  | [], acc => acc
  | d :: ds, acc => valDigitsAux ds (acc * 10 + d)

/-- chrono's nanosecond scan: up to the first nine fractional digits count,
scaled to nanoseconds; digits beyond the ninth are consumed and ignored. -/
def nanoOfDigits (ds : List Nat) : Nat :=
  valDigitsAux (ds.take 9) 0 * 10 ^ (9 - min ds.length 9)

/-- chrono's AutoSi fractional-second rendering used by to_rfc3339: nothing
for zero nanoseconds, otherwise a dot and 3, 6 or 9 digits depending on
millisecond/microsecond divisibility. -/
def fracChars (nano : Nat) : List Char :=
  if nano = 0 then []
  else if nano % 1000000 = 0 then '.' :: padChars 3 (nano / 1000000)
  else if nano % 1000 = 0 then '.' :: padChars 6 (nano / 1000)
  else '.' :: padChars 9 nano

/-- chrono's colon-separated numeric offset rendering (sign, hours, colon,
minutes), with plus for a non-negative offset; the argument is the offset in
seconds and write_local_minus_utc prints abs/3600 and abs/60 mod 60, silently
truncating any sub-minute remainder. -/
def offChars (off : Int) : List Char :=
  (if off < 0 then '-' else '+') ::
    (padChars 2 (off.natAbs / 3600) ++ ':' :: padChars 2 (off.natAbs / 60 % 60))

/-- chrono DateTime::to_rfc3339 on the embedded record, as characters. -/
def dtChars (dt : DateTimeFO) : List Char :=
  padChars 4 dt.year ++ '-' :: (padChars 2 dt.month ++ '-' :: (padChars 2 dt.day ++
    'T' :: (padChars 2 dt.hour ++ ':' :: (padChars 2 dt.minute ++ ':' :: (padChars 2 dt.second ++
    (fracChars dt.nano ++ offChars dt.offSeconds))))))

/-- chrono DateTime::to_rfc3339 (the Display/serialisation path behind
ToJSON::to_json in datetime.rs lines 56-60). -/
def dtToRFC3339 (dt : DateTimeFO) : String :=
  String.mk (dtChars dt)

/-- Expect one specific character at the head of the input. -/
def expectChar (c : Char) : List Char → Option (List Char)
  | d :: r => if d = c then some r else none
  | [] => none

/-- A fixed-width digit field followed by a separator character. -/
def takeField (w : Nat) (c : Char) (s : List Char) : Option (Nat × List Char) :=
  match takeDigitsAux 0 w s with
  | some (n, r) =>
    match expectChar c r with
    | some r2 => some (n, r2)
    | none => none
  | none => none

/-- Optional fractional-second part: a dot must be followed by at least one
digit; absence of a dot leaves the input untouched with zero nanoseconds. -/
def parseFrac (s : List Char) : Option (Nat × List Char) :=
  match s with
  | c :: r =>
    if c = '.' then
      if (spanDigits r).1 = [] then none
      else some (nanoOfDigits (spanDigits r).1, (spanDigits r).2)
    else some (0, s)
  | [] => some (0, s)

/-- Numeric offset tail after a sign: two hour digits, a colon, two minute
digits in the canonical ranges, returned as the seconds value with which
chrono builds the FixedOffset, with the requested sign. -/
def parseOffsetNum (neg : Bool) (s : List Char) : Option (Int × List Char) :=
  match takeDigitsAux 0 2 s with
  | some (hh, rest) =>
    match expectChar ':' rest with
    | some rest2 =>
      match takeDigitsAux 0 2 rest2 with
      | some (mm, rest3) =>
        if hh ≤ 23 ∧ mm ≤ 59 then
          some (if neg then -((hh * 3600 + mm * 60 : Nat) : Int)
            else ((hh * 3600 + mm * 60 : Nat) : Int), rest3)
        else none
      | none => none
    | none => none
  | none => none

/-- RFC 3339 offset: Z (either case) for UTC or a signed numeric offset. -/
def parseOffset (s : List Char) : Option (Int × List Char) :=
  match s with
  | c :: r =>
    if c = 'Z' ∨ c = 'z' then some ((0 : Int), r)
    else if c = '+' then parseOffsetNum false r
    else if c = '-' then parseOffsetNum true r
    else none
  | [] => none

/-- Model of chrono's FromStr for DateTime of FixedOffset on the canonical
RFC 3339 grammar: date, the T separator, time, optional fraction, offset,
end of input, with the field ranges chrono validates. -/
def dtParseChars (s : List Char) : Option DateTimeFO :=
  match takeField 4 '-' s with
  | none => none
  | some (y, s1) =>
    match takeField 2 '-' s1 with
    | none => none
    | some (mo, s2) =>
      match takeField 2 'T' s2 with
      | none => none
      | some (d, s3) =>
        match takeField 2 ':' s3 with
        | none => none
        | some (h, s4) =>
          match takeField 2 ':' s4 with
          | none => none
          | some (mi, s5) =>
            match takeDigitsAux 0 2 s5 with
            | none => none
            | some (sec, s6) =>
              match parseFrac s6 with
              | none => none
              | some (nano, s7) =>
                match parseOffset s7 with
                | some (off, []) =>
                  if 1 ≤ mo ∧ mo ≤ 12 ∧ 1 ≤ d ∧ d ≤ daysInMonth y mo ∧ h ≤ 23 ∧
                      mi ≤ 59 ∧ sec ≤ 59 ∧ nano < 10 ^ 9 then
                    some ⟨y, mo, d, h, mi, sec, nano, off⟩
                  else none
                | _ => none

/-- String-level datetime parse (the str::parse call sites in datetime.rs). -/
def dtParseStr (s : String) : Option DateTimeFO :=
  dtParseChars s.toList

/-- Message standing for the Display rendering of a chrono parse error as it
reaches ParseError::custom through the question-mark conversion. -/
def dtErrorMessage : String := "invalid datetime"

/-- Epoch day number of a civil date (days since 1970-01-01), the civil-to-days
algorithm chrono uses internally. -/
def daysFromCivil (y m d : Int) : Int :=
  let y2 := if m ≤ 2 then y - 1 else y
  let era := (if 0 ≤ y2 then y2 else y2 - 399) / 400
  let yoe := y2 - era * 400
  let mp := (m + 9) % 12
  let doy := (153 * mp + 2) / 5 + d - 1
  let doe := yoe * 365 + yoe / 4 - yoe / 100 + doy
  era * 146097 + doe - 719468

/-- The UTC instant of the embedded datetime, in nanoseconds since the epoch:
local civil time minus the fixed offset.  chrono's DateTime equality compares
exactly this instant (the stored naive UTC datetime), not the offset. -/
def DateTimeFO.instantNanos (dt : DateTimeFO) : Int :=
  ((daysFromCivil dt.year dt.month dt.day) * 86400
    + dt.hour * 3600 + dt.minute * 60 + dt.second - dt.offSeconds) * 1000000000 + dt.nano

/-- chrono's DateTime equality on the embedded records: equality of UTC
instants. -/
def chronoEq (a b : DateTimeFO) : Prop :=
  a.instantNanos = b.instantNanos

instance (a b : DateTimeFO) : Decidable (chronoEq a b) := by
  unfold chronoEq
  infer_instance

/-- ParseFromJSON::parse_from_json for the datetime (datetime.rs lines
27-35): require a JSON string and run the chrono parser on it. -/
def parseFromJsonDateTime : JValue → Except ParseError DateTimeFO
  | .str s =>
    match dtParseStr s with
    | some dt => .ok dt
    | none => .error (.custom dtErrorMessage)
  | v => .error (.expectedType v)

/-- ToJSON::to_json for the datetime (datetime.rs lines 56-60):
Value::String of to_rfc3339. -/
def toJsonDateTime (dt : DateTimeFO) : JValue :=
  .str (dtToRFC3339 dt)

/-- ParseFromParameter::parse_from_parameter for the datetime (datetime.rs
lines 37-44): None fails with expected_input, Some text runs the chrono
parser with a failure surfaced as a custom parse error. -/
def parseFromParameterDateTime : Option String → Except ParseError DateTimeFO
  | some v =>
    match dtParseStr v with
    | some dt => .ok dt
    | none => .error (.custom dtErrorMessage)
  | none => .error .expectedInput

/-- Demonstration security scheme used by the closed instantiation of the
Option composition theorem. -/
def secDemoScheme : Nat → Unit → Except String Nat :=
  fun n _ => if n = 1 then .ok 42 else .error "bad"

theorem charDigit_digitChar : ∀ d : Nat, d < 10 → charDigit (Nat.digitChar d) = some d := by
  decide

theorem takeDigitsAux_padChars (w : Nat) : ∀ n acc : Nat, ∀ rest : List Char, n < 10 ^ w →
    takeDigitsAux acc w (padChars w n ++ rest) = some (acc * 10 ^ w + n, rest) := by
  induction w with
  | zero =>
    intro n acc rest h
    simp only [padChars, padDigitsN, List.map_nil, List.nil_append, takeDigitsAux, pow_zero,
      Nat.mul_one, Option.some.injEq, Prod.mk.injEq]
    rw [pow_zero] at h
    exact ⟨by omega, trivial⟩
  | succ w ih =>
    intro n acc rest h
    have h10 : 0 < 10 ^ w := Nat.pos_pow_of_pos w (by norm_num)
    have hd : n / 10 ^ w < 10 := by
      rw [Nat.div_lt_iff_lt_mul h10]
      calc n < 10 ^ (w + 1) := h
        _ = 10 * 10 ^ w := by ring
    simp only [padChars, padDigitsN, List.map_cons, List.cons_append, takeDigitsAux,
      List.append_eq]
    rw [charDigit_digitChar _ hd]
    dsimp only
    have hpc : List.map Nat.digitChar (padDigitsN w (n % 10 ^ w)) = padChars w (n % 10 ^ w) := rfl
    rw [hpc, ih (n % 10 ^ w) (acc * 10 + n / 10 ^ w) rest (Nat.mod_lt _ h10)]
    have heq : (acc * 10 + n / 10 ^ w) * 10 ^ w + n % 10 ^ w
        = acc * 10 ^ (w + 1) + (n / 10 ^ w * 10 ^ w + n % 10 ^ w) := by ring
    rw [heq, Nat.div_add_mod']

theorem valDigitsAux_padDigitsN (w : Nat) : ∀ n acc : Nat, n < 10 ^ w →
    valDigitsAux (padDigitsN w n) acc = acc * 10 ^ w + n := by
  induction w with
  | zero =>
    intro n acc h
    simp only [padDigitsN, valDigitsAux, pow_zero, Nat.mul_one]
    rw [pow_zero] at h
    omega
  | succ w ih =>
    intro n acc h
    have h10 : 0 < 10 ^ w := Nat.pos_pow_of_pos w (by norm_num)
    simp only [padDigitsN, valDigitsAux]
    rw [ih (n % 10 ^ w) (acc * 10 + n / 10 ^ w) (Nat.mod_lt _ h10)]
    have heq : (acc * 10 + n / 10 ^ w) * 10 ^ w + n % 10 ^ w
        = acc * 10 ^ (w + 1) + (n / 10 ^ w * 10 ^ w + n % 10 ^ w) := by ring
    rw [heq, Nat.div_add_mod']

theorem padDigitsN_length (w : Nat) : ∀ n, (padDigitsN w n).length = w := by
  induction w with
  | zero => intro n; rfl
  | succ w ih => intro n; simp [padDigitsN, ih]

theorem padDigitsN_mem_lt (w : Nat) : ∀ n, n < 10 ^ w → ∀ d ∈ padDigitsN w n, d < 10 := by
  induction w with
  | zero => intro n _ d hd; simp [padDigitsN] at hd
  | succ w ih =>
    intro n h d hd
    have h10 : 0 < 10 ^ w := Nat.pos_pow_of_pos w (by norm_num)
    simp only [padDigitsN, List.mem_cons] at hd
    rcases hd with hd | hd
    · subst hd
      rw [Nat.div_lt_iff_lt_mul h10]
      calc n < 10 ^ (w + 1) := h
        _ = 10 * 10 ^ w := by ring
    · exact ih (n % 10 ^ w) (Nat.mod_lt _ h10) d hd

theorem spanDigits_map_append (ds : List Nat) (rest : List Char) (h : ∀ d ∈ ds, d < 10) :
    spanDigits (ds.map Nat.digitChar ++ rest) = (ds ++ (spanDigits rest).1, (spanDigits rest).2) := by
  induction ds with
  | nil => simp
  | cons d ds ih =>
    simp only [List.map_cons, List.cons_append, spanDigits, List.append_eq]
    rw [charDigit_digitChar d (h d (List.mem_cons_self d ds))]
    dsimp only
    rw [ih (fun x hx => h x (List.mem_cons_of_mem _ hx))]

theorem spanDigits_not_digit (c : Char) (r : List Char) (h : charDigit c = none) :
    spanDigits (c :: r) = ([], c :: r) := by
  simp [spanDigits, h]

theorem takeField_pad (w n : Nat) (c : Char) (rest : List Char) (h : n < 10 ^ w) :
    takeField w c (padChars w n ++ c :: rest) = some (n, rest) := by
  unfold takeField
  rw [takeDigitsAux_padChars w n 0 (c :: rest) h]
  simp [expectChar]

theorem takeDigitsAux_pad0 (w n : Nat) (rest : List Char) (h : n < 10 ^ w) :
    takeDigitsAux 0 w (padChars w n ++ rest) = some (n, rest) := by
  rw [takeDigitsAux_padChars w n 0 rest h]
  simp

theorem charDigit_offSign (off : Int) : charDigit (if off < 0 then '-' else '+') = none := by
  split_ifs <;> rfl

theorem offSign_ne_dot (off : Int) : (if off < 0 then '-' else '+') ≠ '.' := by
  split_ifs <;> decide

theorem spanDigits_offChars (off : Int) : spanDigits (offChars off) = ([], offChars off) := by
  unfold offChars
  exact spanDigits_not_digit _ _ (charDigit_offSign off)

theorem spanDigits_pad_offChars (w q : Nat) (off : Int) (hq : q < 10 ^ w) :
    spanDigits (padChars w q ++ offChars off) = (padDigitsN w q, offChars off) := by
  have h1 := spanDigits_map_append (padDigitsN w q) (offChars off) (padDigitsN_mem_lt w q hq)
  rw [show padChars w q = (padDigitsN w q).map Nat.digitChar from rfl, h1, spanDigits_offChars]
  simp

theorem nanoOfDigits_pad (w q : Nat) (hq : q < 10 ^ w) (hw9 : w ≤ 9) :
    nanoOfDigits (padDigitsN w q) = q * 10 ^ (9 - w) := by
  unfold nanoOfDigits
  rw [List.take_of_length_le (by rw [padDigitsN_length]; omega)]
  rw [valDigitsAux_padDigitsN w q 0 hq, padDigitsN_length, Nat.min_eq_left hw9]
  simp

theorem padDigitsN_ne_nil (w q : Nat) (hw : 0 < w) : padDigitsN w q ≠ [] := by
  intro hcontra
  have := padDigitsN_length w q
  rw [hcontra] at this
  simp at this
  omega

theorem parseFrac_dot (w q : Nat) (off : Int) (hq : q < 10 ^ w) (hw : 0 < w) (hw9 : w ≤ 9) :
    parseFrac ('.' :: (padChars w q ++ offChars off)) = some (q * 10 ^ (9 - w), offChars off) := by
  simp only [parseFrac]
  rw [if_pos trivial, spanDigits_pad_offChars w q off hq]
  dsimp only
  rw [if_neg (padDigitsN_ne_nil w q hw), nanoOfDigits_pad w q hq hw9]

theorem parseFrac_fracChars (nano : Nat) (off : Int) (h : nano < 10 ^ 9) :
    parseFrac (fracChars nano ++ offChars off) = some (nano, offChars off) := by
  by_cases h0 : nano = 0
  · subst h0
    rw [show fracChars 0 = [] from rfl, List.nil_append]
    unfold offChars
    simp only [parseFrac]
    rw [if_neg (offSign_ne_dot off)]
  · by_cases h6 : nano % 1000000 = 0
    · rw [show fracChars nano = '.' :: padChars 3 (nano / 1000000) from by
        unfold fracChars; rw [if_neg h0, if_pos h6]]
      rw [List.cons_append]
      rw [parseFrac_dot 3 (nano / 1000000) off (by omega) (by omega) (by omega)]
      congr 1
      congr 1
      have : nano / 1000000 * 1000000 = nano := Nat.div_mul_cancel (Nat.dvd_of_mod_eq_zero h6)
      calc nano / 1000000 * 10 ^ (9 - 3) = nano / 1000000 * 1000000 := by norm_num
        _ = nano := this
    · by_cases h3 : nano % 1000 = 0
      · rw [show fracChars nano = '.' :: padChars 6 (nano / 1000) from by
          unfold fracChars; rw [if_neg h0, if_neg h6, if_pos h3]]
        rw [List.cons_append]
        rw [parseFrac_dot 6 (nano / 1000) off (by omega) (by omega) (by omega)]
        congr 1
        congr 1
        have : nano / 1000 * 1000 = nano := Nat.div_mul_cancel (Nat.dvd_of_mod_eq_zero h3)
        calc nano / 1000 * 10 ^ (9 - 6) = nano / 1000 * 1000 := by norm_num
          _ = nano := this
      · rw [show fracChars nano = '.' :: padChars 9 nano from by
          unfold fracChars; rw [if_neg h0, if_neg h6, if_neg h3]]
        rw [List.cons_append]
        rw [parseFrac_dot 9 nano off (by omega) (by omega) (by omega)]
        simp

theorem parseOffsetNum_pad (neg : Bool) (a : Nat) (ha : a ≤ 86399) (hdvd : a % 60 = 0) :
    parseOffsetNum neg (padChars 2 (a / 3600) ++ ':' :: padChars 2 (a / 60 % 60)) =
      some (if neg then -((a : Nat) : Int) else ((a : Nat) : Int), []) := by
  have ha1 : a / 3600 < 10 ^ 2 := by omega
  have ha2 : a / 60 % 60 < 10 ^ 2 := by omega
  unfold parseOffsetNum
  rw [takeDigitsAux_pad0 2 (a / 3600) _ ha1]
  dsimp only
  rw [show expectChar ':' (':' :: padChars 2 (a / 60 % 60)) = some (padChars 2 (a / 60 % 60)) from by
    simp [expectChar]]
  dsimp only
  rw [show padChars 2 (a / 60 % 60) = padChars 2 (a / 60 % 60) ++ [] from (List.append_nil _).symm]
  rw [takeDigitsAux_pad0 2 (a / 60 % 60) [] ha2]
  dsimp only
  rw [if_pos ⟨by omega, by omega⟩]
  have : a / 3600 * 3600 + a / 60 % 60 * 60 = a := by omega
  rw [this]

theorem parseOffsetNum_pad_true (a : Nat) (ha : a ≤ 86399) (hdvd : a % 60 = 0) :
    parseOffsetNum true (padChars 2 (a / 3600) ++ ':' :: padChars 2 (a / 60 % 60)) =
      some (-((a : Nat) : Int), []) := by
  rw [parseOffsetNum_pad true a ha hdvd]
  rfl

theorem parseOffsetNum_pad_false (a : Nat) (ha : a ≤ 86399) (hdvd : a % 60 = 0) :
    parseOffsetNum false (padChars 2 (a / 3600) ++ ':' :: padChars 2 (a / 60 % 60)) =
      some (((a : Nat) : Int), []) := by
  rw [parseOffsetNum_pad false a ha hdvd]
  rfl

theorem parseOffset_offChars (off : Int) (h : off.natAbs ≤ 86399) (hdvd : off.natAbs % 60 = 0) :
    parseOffset (offChars off) = some (off, []) := by
  unfold offChars
  by_cases hneg : off < 0
  · rw [if_pos hneg]
    simp only [parseOffset]
    simp only [show ('-' = 'Z' ∨ '-' = 'z') = False from by simp, if_false,
      show ('-' = '+') = False from by simp, show ('-' = '-') = True from by simp, if_true]
    rw [parseOffsetNum_pad_true off.natAbs h hdvd]
    have hoff : -((off.natAbs : Nat) : Int) = off := by omega
    rw [hoff]
  · rw [if_neg hneg]
    simp only [parseOffset]
    simp only [show ('+' = 'Z' ∨ '+' = 'z') = False from by simp,
      if_false, show ('+' = '+') = True from by simp, if_true]
    rw [parseOffsetNum_pad_false off.natAbs h hdvd]
    have hoff : ((off.natAbs : Nat) : Int) = off := by omega
    rw [hoff]

theorem daysInMonth_le (y m : Nat) : daysInMonth y m ≤ 31 := by
  unfold daysInMonth
  split_ifs <;> omega

theorem dtParseChars_dtChars (dt : DateTimeFO) (h : dt.Valid)
    (hoff : dt.offSeconds % 60 = 0) : dtParseChars (dtChars dt) = some dt := by
  obtain ⟨hy, hm1, hm2, hd1, hd2, hh, hmi, hs, hn, ho⟩ := h
  have hdvd : dt.offSeconds.natAbs % 60 = 0 := by omega
  have hd31 : dt.day ≤ 31 := le_trans hd2 (daysInMonth_le dt.year dt.month)
  have e4 : (10 : Nat) ^ 4 = 10000 := by norm_num
  have e2 : (10 : Nat) ^ 2 = 100 := by norm_num
  unfold dtChars dtParseChars
  rw [takeField_pad 4 dt.year '-' _ (by omega)]
  dsimp only
  rw [takeField_pad 2 dt.month '-' _ (by omega)]
  dsimp only
  rw [takeField_pad 2 dt.day 'T' _ (by omega)]
  dsimp only
  rw [takeField_pad 2 dt.hour ':' _ (by omega)]
  dsimp only
  rw [takeField_pad 2 dt.minute ':' _ (by omega)]
  dsimp only
  rw [takeDigitsAux_pad0 2 dt.second _ (by omega)]
  dsimp only
  rw [parseFrac_fracChars dt.nano dt.offSeconds hn]
  dsimp only
  rw [parseOffset_offChars dt.offSeconds ho hdvd]
  dsimp only
  rw [if_pos ⟨hm1, hm2, hd1, hd2, hh, hmi, hs, hn⟩]

theorem parseFromJsonSigned_ok (minV maxV v : Int) (h2 : maxV ≤ i64MaxInt)
    (h3 : minV ≤ v) (h4 : v ≤ maxV) :
    parseFromJsonSigned minV maxV (toJsonSigned v) = .ok v := by
  unfold toJsonSigned
  by_cases hv : v < 0
  · rw [if_pos hv]
    simp only [parseFromJsonSigned, JsonNumber.asI64]
    rw [if_neg (by omega)]
  · rw [if_neg hv]
    simp only [parseFromJsonSigned, JsonNumber.asI64]
    have htn : ((v.toNat : Nat) : Int) = v := Int.toNat_of_nonneg (by omega)
    rw [htn, if_pos (by omega)]
    dsimp only
    rw [if_neg (by omega)]

theorem parseFromJsonSigned_range (minV maxV n : Int) (_hlo : i64MinInt ≤ n)
    (hhi : n ≤ i64MaxInt) (hout : n < minV ∨ n > maxV) :
    parseFromJsonSigned minV maxV (toJsonSigned n) =
      .error (.custom (rangeMessageSigned minV maxV)) := by
  unfold toJsonSigned
  by_cases hv : n < 0
  · rw [if_pos hv]
    simp only [parseFromJsonSigned, JsonNumber.asI64]
    rw [if_pos hout]
  · rw [if_neg hv]
    simp only [parseFromJsonSigned, JsonNumber.asI64]
    have htn : ((n.toNat : Nat) : Int) = n := Int.toNat_of_nonneg (by omega)
    rw [htn, if_pos (by omega)]
    dsimp only
    rw [if_pos hout]

theorem parseFromJsonSigned_ok_bounds (minV maxV : Int) (num : JsonNumber) (v : Int)
    (h : parseFromJsonSigned minV maxV (.number num) = .ok v) : minV ≤ v ∧ v ≤ maxV := by
  simp only [parseFromJsonSigned] at h
  split at h
  · exact absurd h (by simp)
  · split at h
    · exact absurd h (by simp)
    · rename_i heq n hni hcond
      rw [Except.ok.injEq] at h
      subst h
      push_neg at hcond
      omega

theorem parseFromJsonSigned_not_number (minV maxV : Int) (v : JValue)
    (h : ∀ n, v ≠ .number n) :
    parseFromJsonSigned minV maxV v = .error (.expectedType v) := by
  cases v
  case number n => exact absurd rfl (h n)
  all_goals rfl

theorem parseFromJsonUnsigned_ok (minV maxV v : Nat) (hu : maxV ≤ u64MaxNat)
    (h3 : minV ≤ v) (h4 : v ≤ maxV) :
    parseFromJsonUnsigned minV maxV (toJsonUnsigned v) = .ok v := by
  unfold toJsonUnsigned
  simp only [parseFromJsonUnsigned, JsonNumber.asU64]
  rw [if_pos (by omega)]
  dsimp only
  rw [if_neg (by omega)]

theorem parseFromJsonUnsigned_range (minV maxV n : Nat) (hn : n ≤ u64MaxNat)
    (hout : n < minV ∨ n > maxV) :
    parseFromJsonUnsigned minV maxV (toJsonUnsigned n) =
      .error (.custom (rangeMessageUnsigned minV maxV)) := by
  unfold toJsonUnsigned
  simp only [parseFromJsonUnsigned, JsonNumber.asU64]
  rw [if_pos hn]
  dsimp only
  rw [if_pos hout]

theorem parseFromJsonUnsigned_ok_bounds (minV maxV : Nat) (num : JsonNumber) (v : Nat)
    (h : parseFromJsonUnsigned minV maxV (.number num) = .ok v) : minV ≤ v ∧ v ≤ maxV := by
  simp only [parseFromJsonUnsigned] at h
  split at h
  · exact absurd h (by simp)
  · split at h
    · exact absurd h (by simp)
    · rename_i heq n hni hcond
      rw [Except.ok.injEq] at h
      subst h
      push_neg at hcond
      omega

theorem parseFromJsonUnsigned_not_number (minV maxV : Nat) (v : JValue)
    (h : ∀ n, v ≠ .number n) :
    parseFromJsonUnsigned minV maxV v = .error (.expectedType v) := by
  cases v
  case number n => exact absurd rfl (h n)
  all_goals rfl

/-- C1: the blanket ApiRequest::from_request performs strict content negotiation for any
payload: with no content-type header it fails with ExpectContentType; with a header whose MIME
essence differs from the payload's declared CONTENT_TYPE it fails with ContentTypeNotSupported
carrying the offending header string; and when the essence equals the declared CONTENT_TYPE
(parameters such as charset ignored by essence extraction) it delegates to the payload's own
body parser. -/
theorem c1_content_negotiation {α β : Type} (contentTypeConst : String)
    (parsePayload : β → Except ParseRequestError α) (body : β) :
    (apiFromRequest contentTypeConst parsePayload none body = .error .expectContentType) ∧
    (∀ ct essence, parseMime ct = some essence → essence ≠ contentTypeConst →
      apiFromRequest contentTypeConst parsePayload (some ct) body =
        .error (.contentTypeNotSupported ct)) ∧
    (∀ ct, parseMime ct = some contentTypeConst →
      apiFromRequest contentTypeConst parsePayload (some ct) body = parsePayload body) := by
  refine ⟨rfl, ?_, ?_⟩
  · intro ct essence hp hne
    simp only [apiFromRequest, hp]
    rw [if_pos hne]
  · intro ct hp
    simp only [apiFromRequest, hp]
    rw [if_neg (by simp)]

/-- Witness for C1 at the spec's concrete scenarios: a JSON payload under no content type, under
text/plain, and under application/json with a charset parameter. -/
theorem c1_content_negotiation_witness :
    apiFromRequest "application/json" (fun (_ : Unit) => (.ok 7 : Except ParseRequestError Nat))
      none () = .error .expectContentType ∧
    apiFromRequest "application/json" (fun (_ : Unit) => (.ok 7 : Except ParseRequestError Nat))
      (some "text/plain") () = .error (.contentTypeNotSupported "text/plain") ∧
    apiFromRequest "application/json" (fun (_ : Unit) => (.ok 7 : Except ParseRequestError Nat))
      (some "application/json; charset=utf-8") () = .ok 7 :=
  ⟨(c1_content_negotiation "application/json" (fun _ => .ok 7) ()).1,
   (c1_content_negotiation "application/json" (fun _ => .ok 7) ()).2.1 "text/plain" "text/plain"
     (by decide) (by decide),
   (c1_content_negotiation "application/json" (fun _ => .ok 7) ()).2.2
     "application/json; charset=utf-8" (by decide)⟩

/-- C2 counterexample: for u8 (an unsigned type with MIN = 0, MAX = 255) the JSON number
MIN - 1 = -1 is rejected, but with the "invalid integer" conversion error produced when
as_u64 fails, which is not the bounds-carrying out-of-range error the claim requires. -/
theorem c2_counterexample :
    parseFromJsonUnsigned 0 255 (.number (.negInt (-1))) = .error (.custom "invalid integer") ∧
    "invalid integer" ≠ rangeMessageUnsigned 0 255 :=
  ⟨rfl, by decide⟩

/-- C2 (amended): every integer type accepts exactly the integer-represented JSON numbers in
its native closed range, returning the value; MIN - 1 and MAX + 1 are rejected with the
bounds-carrying out-of-range message whenever the value is representable in the parser's
64-bit working type (as_i64 for signed, as_u64 for unsigned), and otherwise with the
"invalid integer" conversion error: MIN - 1 of the unsigned types (a negative integer
number), MAX + 1 of i64 (the u64 number 2^63), and the 64-bit-unrepresentable extremes
MAX + 1 of u64 and MIN - 1 of i64, which serde_json can only store as Floats; non-numeric
JSON values are rejected with the expected-type error. -/
theorem c2_integer_json_range :
    (∀ minV maxV v : Int, maxV ≤ i64MaxInt → minV ≤ v → v ≤ maxV →
      parseFromJsonSigned minV maxV (toJsonSigned v) = .ok v) ∧
    (∀ (minV maxV : Int) (num : JsonNumber) (v : Int),
      parseFromJsonSigned minV maxV (.number num) = .ok v → minV ≤ v ∧ v ≤ maxV) ∧
    (∀ minV maxV : Int, i64MinInt ≤ minV - 1 → maxV ≤ i64MaxInt → minV ≤ maxV →
      parseFromJsonSigned minV maxV (toJsonSigned (minV - 1)) =
        .error (.custom (rangeMessageSigned minV maxV))) ∧
    (∀ minV maxV : Int, i64MinInt ≤ minV → maxV + 1 ≤ i64MaxInt → minV ≤ maxV →
      parseFromJsonSigned minV maxV (toJsonSigned (maxV + 1)) =
        .error (.custom (rangeMessageSigned minV maxV))) ∧
    (∀ minV maxV v : Nat, maxV ≤ u64MaxNat → minV ≤ v → v ≤ maxV →
      parseFromJsonUnsigned minV maxV (toJsonUnsigned v) = .ok v) ∧
    (∀ (minV maxV : Nat) (num : JsonNumber) (v : Nat),
      parseFromJsonUnsigned minV maxV (.number num) = .ok v → minV ≤ v ∧ v ≤ maxV) ∧
    (∀ minV maxV : Nat, maxV + 1 ≤ u64MaxNat → minV ≤ maxV →
      parseFromJsonUnsigned minV maxV (toJsonUnsigned (maxV + 1)) =
        .error (.custom (rangeMessageUnsigned minV maxV))) ∧
    (∀ minV maxV : Nat,
      parseFromJsonUnsigned minV maxV (.number (.negInt (-1))) =
        .error (.custom "invalid integer")) ∧
    (parseFromJsonSigned i64MinInt i64MaxInt (.number (.posInt (2 ^ 63))) =
      .error (.custom "invalid integer")) ∧
    (∀ minV maxV : Nat,
      parseFromJsonUnsigned minV maxV (.number .float) =
        .error (.custom "invalid integer")) ∧
    (∀ minV maxV : Int,
      parseFromJsonSigned minV maxV (.number .float) =
        .error (.custom "invalid integer")) ∧
    (∀ (minV maxV : Int) (v : JValue), (∀ n, v ≠ .number n) →
      parseFromJsonSigned minV maxV v = .error (.expectedType v)) ∧
    (∀ (minV maxV : Nat) (v : JValue), (∀ n, v ≠ .number n) →
      parseFromJsonUnsigned minV maxV v = .error (.expectedType v)) := by
  refine ⟨fun minV maxV v h2 h3 h4 => parseFromJsonSigned_ok minV maxV v h2 h3 h4,
    fun minV maxV num v h => parseFromJsonSigned_ok_bounds minV maxV num v h,
    fun minV maxV hlo hhi hle =>
      parseFromJsonSigned_range minV maxV (minV - 1) hlo (by omega) (by omega),
    fun minV maxV hlo hhi hle =>
      parseFromJsonSigned_range minV maxV (maxV + 1) (by omega) hhi (by omega),
    fun minV maxV v hu h3 h4 => parseFromJsonUnsigned_ok minV maxV v hu h3 h4,
    fun minV maxV num v h => parseFromJsonUnsigned_ok_bounds minV maxV num v h,
    fun minV maxV hu hle => parseFromJsonUnsigned_range minV maxV (maxV + 1) hu (by omega),
    fun minV maxV => rfl,
    ?_,
    fun minV maxV => rfl,
    fun minV maxV => rfl,
    fun minV maxV v h => parseFromJsonSigned_not_number minV maxV v h,
    fun minV maxV v h => parseFromJsonUnsigned_not_number minV maxV v h⟩
  · rfl

/-- Witness for C2 at i8 and u8: in-range accept, out-of-range rejects at MIN - 1 and MAX + 1
with the bounds-carrying message, and a string rejected with expected-type. -/
theorem c2_integer_json_range_witness :
    parseFromJsonSigned (-128) 127 (toJsonSigned 5) = .ok 5 ∧
    parseFromJsonSigned (-128) 127 (toJsonSigned (-129)) =
      .error (.custom (rangeMessageSigned (-128) 127)) ∧
    parseFromJsonSigned (-128) 127 (toJsonSigned 128) =
      .error (.custom (rangeMessageSigned (-128) 127)) ∧
    parseFromJsonUnsigned 0 255 (toJsonUnsigned 256) =
      .error (.custom (rangeMessageUnsigned 0 255)) ∧
    parseFromJsonSigned (-128) 127 (.str "x") = .error (.expectedType (.str "x")) :=
  ⟨c2_integer_json_range.1 (-128) 127 5 (by decide) (by decide) (by decide),
   c2_integer_json_range.2.2.1 (-128) 127 (by decide) (by decide) (by decide),
   c2_integer_json_range.2.2.2.1 (-128) 127 (by decide) (by decide) (by decide),
   c2_integer_json_range.2.2.2.2.2.2.1 0 255 (by decide) (by decide),
   c2_integer_json_range.2.2.2.2.2.2.2.2.2.2.2.1 (-128) 127 (.str "x") (by intro n; simp)⟩

/-- C3 counterexample: the i32 parameter parse of "2147483648" does fail, but with the Rust
standard library overflow message, which mentions neither bound; the bounds-carrying message
exists only on the JSON parsing path. -/
theorem c3_counterexample :
    parseFromParameterInt true (-(2 ^ 31)) (2 ^ 31 - 1) (some "2147483648") =
      .error (.custom "number too large to fit in target type") ∧
    ¬ List.IsInfix "2147483647".toList "number too large to fit in target type".toList ∧
    ¬ List.IsInfix "-2147483648".toList "number too large to fit in target type".toList :=
  ⟨rfl, by decide, by decide⟩

/-- C3 (amended): an i32 parameter parse of "2147483648" (MAX + 1) fails with the custom parse
error wrapping Rust's integer overflow message "number too large to fit in target type"; the
message does not reference the bounds. -/
theorem c3_i32_parameter_overflow :
    parseFromParameterInt true (-(2 ^ 31)) (2 ^ 31 - 1) (some "2147483648") =
      .error (.custom "number too large to fit in target type") := rfl

/-- C4: for the parameter-parseable types (the integers and the datetime),
parse_from_parameter(None) always fails with the missing-input error and never yields a
default value, and malformed text under Some fails with the custom parse-detail error. -/
theorem c4_parameter_missing_input :
    (∀ (signed : Bool) (minV maxV : Int),
      parseFromParameterInt signed minV maxV none = .error .expectedInput) ∧
    (parseFromParameterDateTime none = .error .expectedInput) ∧
    (∀ (signed : Bool) (minV maxV : Int) (s msg : String),
      parseIntRust signed minV maxV s = .error msg →
      parseFromParameterInt signed minV maxV (some s) = .error (.custom msg)) ∧
    (∀ s : String, dtParseStr s = none →
      parseFromParameterDateTime (some s) = .error (.custom dtErrorMessage)) := by
  refine ⟨fun _ _ _ => rfl, rfl, ?_, ?_⟩
  · intro signed minV maxV s msg h
    simp only [parseFromParameterInt, h]
  · intro s h
    simp only [parseFromParameterDateTime, h]

/-- Witness for C4: i32 and the datetime under None, and under the malformed text "abc". -/
theorem c4_parameter_missing_input_witness :
    parseFromParameterInt true (-(2 ^ 31)) (2 ^ 31 - 1) none = .error .expectedInput ∧
    parseFromParameterDateTime none = .error .expectedInput ∧
    parseFromParameterInt true (-(2 ^ 31)) (2 ^ 31 - 1) (some "abc") =
      .error (.custom "invalid digit found in string") ∧
    parseFromParameterDateTime (some "abc") = .error (.custom dtErrorMessage) :=
  ⟨c4_parameter_missing_input.1 true (-(2 ^ 31)) (2 ^ 31 - 1),
   c4_parameter_missing_input.2.1,
   c4_parameter_missing_input.2.2.1 true (-(2 ^ 31)) (2 ^ 31 - 1) "abc"
     "invalid digit found in string" rfl,
   c4_parameter_missing_input.2.2.2 "abc" rfl⟩

/-- C5 counterexample: the round trip fails on a legal datetime value.  chrono permits a
seconds-granular fixed offset (here +30 seconds, a valid FixedOffset), but to_rfc3339
truncates the offset to whole minutes, so parsing the rendered string back yields a datetime
whose offset is zero: a different record denoting a UTC instant 30 seconds away from the
original, hence unequal also under chrono's instant-based DateTime equality. -/
theorem c5_counterexample :
    (⟨2021, 1, 1, 0, 0, 0, 0, 30⟩ : DateTimeFO).Valid ∧
    parseFromJsonDateTime (toJsonDateTime ⟨2021, 1, 1, 0, 0, 0, 0, 30⟩) =
      .ok ⟨2021, 1, 1, 0, 0, 0, 0, 0⟩ ∧
    (⟨2021, 1, 1, 0, 0, 0, 0, 0⟩ : DateTimeFO) ≠ ⟨2021, 1, 1, 0, 0, 0, 0, 30⟩ ∧
    ¬ chronoEq ⟨2021, 1, 1, 0, 0, 0, 0, 0⟩ ⟨2021, 1, 1, 0, 0, 0, 0, 30⟩ :=
  ⟨by decide, rfl, by decide, by decide⟩

/-- C5 (amended): parse_from_json(to_json(v)) succeeds and returns v for every in-range value
of every signed or unsigned integer type whose bounds fit the 64-bit working types, and for
every valid datetime of the embedded RFC 3339 canonical domain whose fixed offset is a whole
number of minutes; for a seconds-granular offset the round trip fails because to_rfc3339
truncates the offset to minutes. -/
theorem c5_roundtrip :
    (∀ minV maxV v : Int, maxV ≤ i64MaxInt → minV ≤ v → v ≤ maxV →
      parseFromJsonSigned minV maxV (toJsonSigned v) = .ok v) ∧
    (∀ minV maxV v : Nat, maxV ≤ u64MaxNat → minV ≤ v → v ≤ maxV →
      parseFromJsonUnsigned minV maxV (toJsonUnsigned v) = .ok v) ∧
    (∀ dt : DateTimeFO, dt.Valid → dt.offSeconds % 60 = 0 →
      parseFromJsonDateTime (toJsonDateTime dt) = .ok dt) := by
  refine ⟨fun minV maxV v h2 h3 h4 => parseFromJsonSigned_ok minV maxV v h2 h3 h4,
    fun minV maxV v hu h3 h4 => parseFromJsonUnsigned_ok minV maxV v hu h3 h4, ?_⟩
  intro dt hdt hoff
  have hs : dtParseStr (dtToRFC3339 dt) = some dt := by
    unfold dtParseStr dtToRFC3339
    exact dtParseChars_dtChars dt hdt hoff
  unfold toJsonDateTime
  simp only [parseFromJsonDateTime, hs]

/-- Witness for C5 at i8, u8 and a concrete datetime with fractional seconds and a negative
whole-minute offset (-05:30). -/
theorem c5_roundtrip_witness :
    parseFromJsonSigned (-128) 127 (toJsonSigned (-7)) = .ok (-7) ∧
    parseFromJsonUnsigned 0 255 (toJsonUnsigned 9) = .ok 9 ∧
    parseFromJsonDateTime (toJsonDateTime ⟨2021, 12, 31, 23, 59, 59, 123456789, -19800⟩) =
      .ok ⟨2021, 12, 31, 23, 59, 59, 123456789, -19800⟩ :=
  ⟨c5_roundtrip.1 (-128) 127 (-7) (by decide) (by decide) (by decide),
   c5_roundtrip.2.1 0 255 9 (by decide) (by decide) (by decide),
   c5_roundtrip.2.2 ⟨2021, 12, 31, 23, 59, 59, 123456789, -19800⟩ (by decide) (by decide)⟩

/-- C6: the Option security-scheme composition never fails: for any underlying extractor and
any request and query input, the result is always an ok value; a success of the underlying
scheme becomes ok-some of its value and a failure becomes ok-none. -/
theorem c6_option_security_scheme {T E Req Q : Type} (f : Req → Q → Except E T)
    (req : Req) (q : Q) :
    (∃ o, secOptionFromRequest f req q = .ok o) ∧
    (∀ v, f req q = .ok v → secOptionFromRequest f req q = .ok (some v)) ∧
    (∀ e, f req q = .error e → secOptionFromRequest f req q = .ok none) := by
  refine ⟨⟨(f req q).toOption, rfl⟩, ?_, ?_⟩
  · intro v h
    simp only [secOptionFromRequest, h, Except.toOption]
  · intro e h
    simp only [secOptionFromRequest, h, Except.toOption]

/-- Witness for C6 on a concrete scheme that accepts exactly the request value 1: the wrapped
extractor succeeds with some on acceptance and still succeeds, with none, on rejection. -/
theorem c6_option_security_scheme_witness :
    secOptionFromRequest secDemoScheme 1 () = .ok (some 42) ∧
    secOptionFromRequest secDemoScheme 0 () = .ok none :=
  ⟨(c6_option_security_scheme secDemoScheme 1 ()).2.1 42 rfl,
   (c6_option_security_scheme secDemoScheme 0 ()).2.2 "bad" rfl⟩

/-- C7: CombinedAPI meta is the first operand's metadata followed by the second's, combine is
associative in effect, and any nesting of combine flattens to the left-to-right declaration
order of the leaf API objects. -/
theorem c7_combined_meta (α : Type) (a b c : ApiObj α) :
    ((a.combine b).meta = a.meta ++ b.meta) ∧
    (((a.combine b).combine c).meta = (a.combine (b.combine c)).meta) ∧
    (∀ t : ApiObj α, t.meta = t.leaves.flatten) := by
  refine ⟨rfl, ?_, ?_⟩
  · simp [ApiObj.combine, ApiObj.meta, List.append_assoc]
  · intro t
    induction t with
    | leaf ms => simp [ApiObj.meta, ApiObj.leaves]
    | combined x y ihx ihy => simp [ApiObj.meta, ApiObj.leaves, ihx, ihy]

/-- C8: PlainText serializes through into_response to a response with content type text/plain,
status 200 and body exactly the wrapped string, in particular for the string of the spec's
end-to-end scenario. -/
theorem c8_plain_text_response :
    (∀ s : String, (PlainText.intoResponse ⟨s⟩).contentType = some "text/plain" ∧
      (PlainText.intoResponse ⟨s⟩).status = 200 ∧ (PlainText.intoResponse ⟨s⟩).body = s) ∧
    PlainText.intoResponse ⟨"hello: test"⟩ =
      { status := 200, contentType := some "text/plain", body := "hello: test" } :=
  ⟨fun _ => ⟨rfl, rfl, rfl⟩, rfl⟩

/-- C9: a response type keeping the defaults has the BAD_REQUEST_HANDLER flag false and a
from_parse_request_error conversion that panics (produces no response value) on every error
argument, so a caller that checks the flag before converting never reaches it. -/
theorem c9_default_bad_request (R : Type) :
    defaultBadRequestHandler = false ∧
    ∀ e : ParseRequestError, defaultFromParseRequestError R e = none :=
  ⟨rfl, fun _ => rfl⟩

/-- C10: when the content-type header is present but the mime crate cannot parse it, the
blanket ApiRequest::from_request fails with ContentTypeNotSupported carrying the raw header
string, for every payload content type and every body parser, so the payload parser is never
invoked on that branch. -/
theorem c10_unparseable_content_type {α β : Type} (contentTypeConst : String)
    (parsePayload : β → Except ParseRequestError α) (body : β) (ct : String)
    (h : parseMime ct = none) :
    apiFromRequest contentTypeConst parsePayload (some ct) body =
      .error (.contentTypeNotSupported ct) := by
  simp only [apiFromRequest, h]

/-- Witness for C10 at the slash-free header "foo", with a body parser whose result would
differ if it were ever consulted. -/
theorem c10_unparseable_content_type_witness :
    apiFromRequest "application/json"
      (fun (_ : Unit) => (.error (.parseRequestBody "unused") : Except ParseRequestError Nat))
      (some "foo") () = .error (.contentTypeNotSupported "foo") :=
  c10_unparseable_content_type "application/json"
    (fun _ => .error (.parseRequestBody "unused")) () "foo" (by decide)
